import Mathlib

/-! Shallow embedding of the sidekick plan-execution core (src/sidekick/main.py):
path sandbox, file materializer, command runner, confirmation gate and plan
executor, with theorems settling the specification claims. -/

/-- A requested file path: absolute flag plus raw components, which may still
contain empty, dot and dotdot segments. -/
structure ReqPath where
  absolute : Bool
  comps : List String
deriving DecidableEq, Repr

/-- Canonicalisation of path components against a base directory, following
dot and dotdot segments, as pathlib Path.resolve does. -/
def resolveComps : List String → List String → List String
  | base, [] => base
  | base, c :: rest =>
    if c = "" ∨ c = "." then resolveComps base rest
    else if c = ".." then resolveComps base.dropLast rest
    else resolveComps (base ++ [c]) rest

/-- Path(p).resolve() relative to the current working directory. -/
def resolvePath (cwd : List String) (p : ReqPath) : List String :=
  if p.absolute then resolveComps [] p.comps else resolveComps cwd p.comps

/-- Character-list prefix test backing the string prefix test below. -/
def charListPre : List Char → List Char → Bool
  | [], _ => true
  | _ :: _, [] => false
  | a :: as, b :: bs => a == b && charListPre as bs

/-- Python str.startswith. -/
def strStartsWith (s pre : String) : Bool := charListPre pre.data s.data

/-- Rendering of a canonical absolute path as a string, as str() of a Path. -/
def renderAbs (comps : List String) : String :=
  "/" ++ String.intercalate "/" comps

/-- The security check of create_file (main.py line 50..51): a plain string
prefix test between the resolved requested path and the resolved working
directory. -/
def sandboxAllows (cwd : List String) (p : ReqPath) : Bool :=
  strStartsWith (renderAbs (resolvePath cwd p)) (renderAbs cwd)

/-- Canonical containment: the resolved path lies in the subtree rooted at the
working directory, the working directory itself included. -/
def containedIn (cwd resolved : List String) : Bool :=
  decide (resolved.take cwd.length = cwd)

/-- The filesystem as a finite map from canonical paths to contents. -/
abbrev FS := List (List String × String)

/-- Full-overwrite write: replaces any existing entry for the path. -/
def fsSet : FS → List String → String → FS
  | [], p, c => [(p, c)]
  | (q, d) :: rest, p, c =>
    if q = p then (p, c) :: rest else (q, d) :: fsSet rest p c

def fsGet : FS → List String → Option String
  | [], _ => none
  | (q, d) :: rest, p => if q = p then some d else fsGet rest p

/-- The messages create_file and edit_file print. -/
inductive FileMsg
  | securityError
  | created
  | editNote
deriving DecidableEq, Repr

/-- create_file (main.py 48..61): sandbox check first, then a full overwrite of
the file at the resolved path; a rejected path leaves the filesystem unchanged. -/
def create_file (cwd : List String) (fs : FS) (p : ReqPath) (content : String) :
    FS × List FileMsg :=
  if sandboxAllows cwd p then
    (fsSet fs (resolvePath cwd p) content, [FileMsg.created])
  else
    (fs, [FileMsg.securityError])

/-- edit_file (main.py 63..67): prints an overwrite note, then delegates to
create_file with the same path and content. -/
def edit_file (cwd : List String) (fs : FS) (p : ReqPath) (content : String) :
    FS × List FileMsg :=
  let r := create_file cwd fs p content
  (r.1, FileMsg.editNote :: r.2)

/-- External behaviour of one shell command: it either runs for some wall-clock
seconds and exits with a code, or fails to spawn at all. -/
inductive CmdBehavior
  | runs (seconds : Nat) (exitCode : Nat) (stdout stderr : String)
  | spawnFails (message : String)
deriving DecidableEq, Repr

inductive Outcome
  | success
  | failure
  | timeout
  | spawnError
deriving DecidableEq, Repr

structure TestReport where
  outcome : Outcome
  exitCode : Option Nat
  stdout : String
  stderr : String
deriving DecidableEq, Repr

/-- The hard timeout passed to subprocess.run (main.py 79). -/
def timeoutSeconds : Nat := 30

/-- execute_test (main.py 69..96): subprocess.run with check and a 30 second
timeout; CalledProcessError, TimeoutExpired and spawn exceptions are each
caught and reported, never re-raised. -/
def execute_test (env : String → CmdBehavior) (command : String) : TestReport :=
  match env command with
  | CmdBehavior.spawnFails m =>
    { outcome := Outcome.spawnError, exitCode := none, stdout := "", stderr := m }
  | CmdBehavior.runs secs code out err =>
    if timeoutSeconds < secs then
      { outcome := Outcome.timeout, exitCode := none, stdout := "", stderr := "" }
    else if code = 0 then
      { outcome := Outcome.success, exitCode := some 0, stdout := out, stderr := err }
    else
      { outcome := Outcome.failure, exitCode := some code, stdout := out, stderr := err }

/-- One decoded action object: each field is the result of dict.get on the
corresponding key. -/
structure RawAction where
  command : Option String
  path : Option String
  content : Option String
  test_command : Option String
deriving DecidableEq, Repr

/-- The file-action filter (main.py 311). -/
def isFileAction (a : RawAction) : Bool :=
  a.command == some "create_file" || a.command == some "edit_file"

/-- The test-action filter (main.py 312). -/
def isTestAction (a : RawAction) : Bool :=
  a.command == some "test"

/-- Observable events of one turn: the confirmation prompts shown, the file
writes performed, the tests run, and the two decline messages. -/
inductive Ev
  | promptFiles (proposed : List String)
  | promptTests (proposed : List String)
  | writeFile (command path content : String)
  | runTest (command : String) (report : TestReport)
  | filesAborted
  | testsSkipped
deriving DecidableEq, Repr

/-- The proposal rendering for file actions (main.py 318..319); subscripting a
missing key raises KeyError out of the display loop. -/
def displayFiles : List RawAction → Except String (List String)
  | [] => Except.ok []
  | a :: rest =>
    match a.command, a.path with
    | some c, some p =>
      match displayFiles rest with
      | Except.ok r => Except.ok ((c ++ " on file " ++ p) :: r)
      | Except.error e => Except.error e
    | _, _ => Except.error "KeyError"

/-- The proposal rendering for test actions (main.py 341..342). -/
def displayTests : List RawAction → Except String (List String)
  | [] => Except.ok []
  | a :: rest =>
    match a.test_command with
    | some c =>
      match displayTests rest with
      | Except.ok r => Except.ok (("Run command: " ++ c) :: r)
      | Except.error e => Except.error e
    | none => Except.error "KeyError"

/-- Python str.lower restricted to its effect on ascii letters, as applied to
the confirmation input (main.py 322 and 345). -/
def strToLower (s : String) : String := String.mk (s.data.map Char.toLower)

/-- The file execution loop (main.py 326..328 and 333..335): the key lookups
happen outside any per-action handler, so a missing key stops the loop with the
events performed so far. -/
def runFileList : List RawAction → List Ev × Option String
  | [] => ([], none)
  | a :: rest =>
    match a.command, a.path, a.content with
    | some c, some p, some ct =>
      let r := runFileList rest
      (Ev.writeFile c p ct :: r.1, r.2)
    | _, _, _ => ([], some "KeyError")

/-- The test execution loop (main.py 349..350 and 354..355). -/
def runTestList (env : String → CmdBehavior) : List RawAction → List Ev × Option String
  | [] => ([], none)
  | a :: rest =>
    match a.test_command with
    | some c =>
      let r := runTestList env rest
      (Ev.runTest c (execute_test env c) :: r.1, r.2)
    | none => ([], some "KeyError")

/-- The two session-level permission flags (main.py 200..202). -/
structure SessionState where
  allow_files_always : Bool
  allow_tests_always : Bool
deriving DecidableEq, Repr

def initState : SessionState :=
  { allow_files_always := false, allow_tests_always := false }

/-- Result of one turn: the updated flags, the event trace, and the message of
the turn-level exception handler (main.py 360..361) when one escaped. -/
structure TurnOut where
  state : SessionState
  events : List Ev
  error : Option String
deriving DecidableEq, Repr

/-- The test half of a turn (main.py 337..355). -/
def testStage (env : String → CmdBehavior) (st : SessionState) (tas : List RawAction)
    (confirmRaw : String) : TurnOut :=
  if tas.isEmpty then { state := st, events := [], error := none }
  else if st.allow_tests_always then
    let r := runTestList env tas
    { state := st, events := r.1, error := r.2 }
  else
    match displayTests tas with
    | Except.error e => { state := st, events := [], error := some e }
    | Except.ok disp =>
      let confirm := strToLower confirmRaw
      let st1 := if confirm = "always" then { st with allow_tests_always := true } else st
      if confirm = "y" || confirm = "always" then
        let r := runTestList env tas
        { state := st1, events := Ev.promptTests disp :: r.1, error := r.2 }
      else
        { state := st1, events := [Ev.promptTests disp, Ev.testsSkipped], error := none }

/-- One turn over the already partitioned action lists (main.py 314..355): the
file stage runs first; declining it or a KeyError escaping it ends the turn
before the test stage. -/
def runTurnParts (env : String → CmdBehavior) (st : SessionState)
    (fas tas : List RawAction) (fileConfirmRaw testConfirmRaw : String) : TurnOut :=
  if fas.isEmpty then testStage env st tas testConfirmRaw
  else if st.allow_files_always then
    let r := runFileList fas
    match r.2 with
    | some e => { state := st, events := r.1, error := some e }
    | none =>
      let t := testStage env st tas testConfirmRaw
      { state := t.state, events := r.1 ++ t.events, error := t.error }
  else
    match displayFiles fas with
    | Except.error e => { state := st, events := [], error := some e }
    | Except.ok disp =>
      let confirm := strToLower fileConfirmRaw
      let st1 := if confirm = "always" then { st with allow_files_always := true } else st
      if confirm = "y" || confirm = "always" then
        let r := runFileList fas
        match r.2 with
        | some e => { state := st1, events := Ev.promptFiles disp :: r.1, error := some e }
        | none =>
          let t := testStage env st1 tas testConfirmRaw
          { state := t.state, events := Ev.promptFiles disp :: (r.1 ++ t.events),
            error := t.error }
      else
        { state := st1, events := [Ev.promptFiles disp, Ev.filesAborted], error := none }

/-- One turn from the decoded action list (main.py 310..355): partition by the
two comprehensions, then run the stages. -/
def runTurn (env : String → CmdBehavior) (st : SessionState) (actions : List RawAction)
    (fileConfirmRaw testConfirmRaw : String) : TurnOut :=
  runTurnParts env st (actions.filter isFileAction) (actions.filter isTestAction)
    fileConfirmRaw testConfirmRaw

/-- A decoded top-level plan object; the actions key may be absent. -/
structure DecodedPlan where
  actions : Option (List RawAction)
deriving DecidableEq, Repr

/-- plan.get with an empty default (main.py 310). -/
def planActions (p : DecodedPlan) : List RawAction := p.actions.getD []

def runTurnPlan (env : String → CmdBehavior) (st : SessionState) (p : DecodedPlan)
    (fc tc : String) : TurnOut :=
  runTurn env st (planActions p) fc tc

/-- Input of one REPL turn. -/
structure TurnInput where
  actions : List RawAction
  fileConfirm : String
  testConfirm : String

/-- The REPL loop threading the session flags through successive turns. -/
def runSession (env : String → CmdBehavior) : SessionState → List TurnInput → SessionState
  | st, [] => st
  | st, t :: rest =>
    runSession env (runTurn env st t.actions t.fileConfirm t.testConfirm).state rest

def isWriteEv : Ev → Bool
  | Ev.writeFile _ _ _ => true
  | _ => false

def isTestEv : Ev → Bool
  | Ev.runTest _ _ => true
  | _ => false

/-- The file-write events of a trace, in order. -/
def writesOf (evs : List Ev) : List Ev := evs.filter isWriteEv

/-- The test-run events of a trace, in order. -/
def testsOf (evs : List Ev) : List Ev := evs.filter isTestEv

/-- The write event a well-formed file action produces. -/
def writeEvOf (a : RawAction) : Ev :=
  Ev.writeFile (a.command.getD "") (a.path.getD "") (a.content.getD "")

/-- The run event a well-formed test action produces. -/
def testEvOf (env : String → CmdBehavior) (a : RawAction) : Ev :=
  Ev.runTest (a.test_command.getD "") (execute_test env (a.test_command.getD ""))

/-- A command environment where every command succeeds quickly. -/
def envOk : String → CmdBehavior := fun _ => CmdBehavior.runs 1 0 "ok" ""

/-- A command environment with one failing and one succeeding command. -/
def envMix : String → CmdBehavior := fun c =>
  if c = "exit 1" then CmdBehavior.runs 1 1 "" "fail" else CmdBehavior.runs 1 0 "ok" ""

def mkCreate (p c : String) : RawAction :=
  { command := some "create_file", path := some p, content := some c, test_command := none }

def mkTest (c : String) : RawAction :=
  { command := some "test", path := none, content := none, test_command := some c }

/-! Helper lemmas shared by the claim theorems. -/

theorem fsGet_fsSet (fs : FS) (p : List String) (c : String) :
    fsGet (fsSet fs p c) p = some c := by
  induction fs with
  | nil => simp [fsSet, fsGet]
  | cons hd tl ih =>
    obtain ⟨q, d⟩ := hd
    by_cases h : q = p
    · simp [fsSet, fsGet, h]
    · simp [fsSet, fsGet, h, ih]

/-! Claim theorems. -/

/-- C1: the sandbox check of create_file admits a path that is not contained in
the working directory: with working directory /work, the absolute path
/workevil/secret.txt passes the string-prefix check although its canonical form
lies outside the /work subtree. -/
theorem sandbox_admits_sibling_of_cwd :
    sandboxAllows ["work"] { absolute := true, comps := ["workevil", "secret.txt"] } = true ∧
    containedIn ["work"]
      (resolvePath ["work"] { absolute := true, comps := ["workevil", "secret.txt"] }) = false := by
  constructor
  · decide
  · decide

/-- C9: executing edit_file has exactly the filesystem effect of create_file
with the same path and content, and for an admitted path the effect is a full
overwrite: afterwards the file holds exactly the new content. -/
theorem edit_file_eq_create_file (cwd : List String) (fs : FS) (p : ReqPath) (c : String) :
    (edit_file cwd fs p c).1 = (create_file cwd fs p c).1 ∧
    (sandboxAllows cwd p = true →
      fsGet (edit_file cwd fs p c).1 (resolvePath cwd p) = some c) := by
  constructor
  · rfl
  · intro h
    simp [edit_file, create_file, h, fsGet_fsSet]

/-- Witness for C9 at a concrete admitted path. -/
theorem edit_file_eq_create_file_witness :
    fsGet (edit_file ["work"] [] { absolute := false, comps := ["notes.txt"] } "hello").1
      (resolvePath ["work"] { absolute := false, comps := ["notes.txt"] }) = some "hello" :=
  (edit_file_eq_create_file ["work"] [] { absolute := false, comps := ["notes.txt"] }
    "hello").2 (by decide)

/-- C8: a command whose wall-clock time exceeds the 30 second timeout yields
outcome Timeout with no exit code; the exit code is absent exactly for the
Timeout and SpawnError outcomes; and Timeout is a distinct outcome from
Failure. -/
theorem timeout_and_exit_code_fidelity :
    (∀ env c secs code out err, env c = CmdBehavior.runs secs code out err →
      timeoutSeconds < secs →
      execute_test env c =
        { outcome := Outcome.timeout, exitCode := none, stdout := "", stderr := "" }) ∧
    (∀ env c, (execute_test env c).exitCode = none ↔
      ((execute_test env c).outcome = Outcome.timeout ∨
        (execute_test env c).outcome = Outcome.spawnError)) ∧
    Outcome.timeout ≠ Outcome.failure := by
  refine ⟨?_, ?_, by decide⟩
  · intro env c secs code out err he hs
    simp [execute_test, he, hs]
  · intro env c
    cases he : env c with
    | spawnFails m => simp [execute_test, he]
    | runs secs code out err =>
      by_cases h30 : timeoutSeconds < secs
      · simp [execute_test, he, h30]
      · by_cases hc : code = 0
        · simp [execute_test, he, h30, hc]
        · simp [execute_test, he, h30, hc]

/-- A command that runs for 60 seconds. -/
def envSleep : String → CmdBehavior := fun _ => CmdBehavior.runs 60 0 "" ""

/-- Witness for C8 on a command sleeping past the timeout. -/
theorem timeout_and_exit_code_fidelity_witness :
    execute_test envSleep "sleep 60" =
      { outcome := Outcome.timeout, exitCode := none, stdout := "", stderr := "" } :=
  timeout_and_exit_code_fidelity.1 envSleep "sleep 60" 60 0 "" "" rfl (by decide)

/-- C4 counterexample: a decoded plan without an actions key produces no events
and no error message at all: the shape failure is silently treated as an empty
plan, no ParseError carrying the raw reply is raised. -/
theorem missing_actions_key_is_silent :
    runTurnPlan envOk initState { actions := none } "y" "y"
      = { state := initState, events := [], error := none } := rfl

/-- C4 amended: a decoded plan whose actions key is absent is treated exactly
as a plan with an empty action list: no action executes, no prompt appears and
no error is reported. -/
theorem missing_actions_key_empty_plan (env : String → CmdBehavior) (st : SessionState)
    (fc tc : String) :
    runTurnPlan env st { actions := none } fc tc
      = runTurnPlan env st { actions := some [] } fc tc ∧
    runTurnPlan env st { actions := none } fc tc
      = { state := st, events := [], error := none } := by
  constructor <;> rfl

/-- C5 counterexample: a plan consisting of one unrecognized entry yields output
identical to the empty plan: the entry is not executed and no diagnostic of any
kind is reported for it. -/
theorem unrecognized_entry_no_diagnostic :
    runTurn envOk initState
      [{ command := some "delete_all", path := some "x", content := some "y",
         test_command := none }] "y" "y"
      = runTurn envOk initState [] "y" "y" := rfl

/-- C5 amended: entries whose command tag is not create_file, edit_file or test
are never executed and are silently dropped by the partitioning: the whole turn
behaves exactly as if the plan contained only the recognized entries, with no
per-entry diagnostic. -/
theorem unrecognized_dropped_silently (env : String → CmdBehavior) (st : SessionState)
    (actions : List RawAction) (fc tc : String) :
    runTurn env st actions fc tc
      = runTurn env st (actions.filter (fun a => isFileAction a || isTestAction a)) fc tc := by
  unfold runTurn
  have h1 : (actions.filter (fun a => isFileAction a || isTestAction a)).filter isFileAction
      = actions.filter isFileAction := by
    rw [List.filter_filter]
    congr 1
    funext a
    cases hf : isFileAction a <;> cases ht : isTestAction a <;> simp [hf, ht]
  have h2 : (actions.filter (fun a => isFileAction a || isTestAction a)).filter isTestAction
      = actions.filter isTestAction := by
    rw [List.filter_filter]
    congr 1
    funext a
    cases hf : isFileAction a <;> cases ht : isTestAction a <;> simp [hf, ht]
  rw [h1, h2]

/-! Well-formedness lemmas for the execution loops. -/

theorem runTestList_wf (env : String → CmdBehavior) (tas : List RawAction)
    (hw : ∀ a ∈ tas, a.test_command.isSome) :
    runTestList env tas = (tas.map (testEvOf env), none) := by
  induction tas with
  | nil => rfl
  | cons a rest ih =>
    obtain ⟨c, hc⟩ := Option.isSome_iff_exists.mp (hw a (by simp))
    have hrest := ih (fun b hb => hw b (by simp [hb]))
    simp [runTestList, hc, hrest, testEvOf]

theorem runFileList_wf (fas : List RawAction)
    (hw : ∀ a ∈ fas, a.command.isSome ∧ a.path.isSome ∧ a.content.isSome) :
    runFileList fas = (fas.map writeEvOf, none) := by
  induction fas with
  | nil => rfl
  | cons a rest ih =>
    obtain ⟨c, hc⟩ := Option.isSome_iff_exists.mp (hw a (by simp)).1
    obtain ⟨p, hp⟩ := Option.isSome_iff_exists.mp (hw a (by simp)).2.1
    obtain ⟨ct, hct⟩ := Option.isSome_iff_exists.mp (hw a (by simp)).2.2
    have hrest := ih (fun b hb => hw b (by simp [hb]))
    simp [runFileList, hc, hp, hct, hrest, writeEvOf]

theorem displayFiles_wf (fas : List RawAction)
    (hw : ∀ a ∈ fas, a.command.isSome ∧ a.path.isSome) :
    ∃ d, displayFiles fas = Except.ok d := by
  induction fas with
  | nil => exact ⟨[], rfl⟩
  | cons a rest ih =>
    obtain ⟨c, hc⟩ := Option.isSome_iff_exists.mp (hw a (by simp)).1
    obtain ⟨p, hp⟩ := Option.isSome_iff_exists.mp (hw a (by simp)).2
    obtain ⟨d, hd⟩ := ih (fun b hb => hw b (by simp [hb]))
    exact ⟨(c ++ " on file " ++ p) :: d, by simp [displayFiles, hc, hp, hd]⟩

theorem displayTests_wf (tas : List RawAction)
    (hw : ∀ a ∈ tas, a.test_command.isSome) :
    ∃ d, displayTests tas = Except.ok d := by
  induction tas with
  | nil => exact ⟨[], rfl⟩
  | cons a rest ih =>
    obtain ⟨c, hc⟩ := Option.isSome_iff_exists.mp (hw a (by simp))
    obtain ⟨d, hd⟩ := ih (fun b hb => hw b (by simp [hb]))
    exact ⟨("Run command: " ++ c) :: d, by simp [displayTests, hc, hd]⟩

theorem runTestList_events_testEv (env : String → CmdBehavior) (tas : List RawAction) :
    ∀ e ∈ (runTestList env tas).1, isTestEv e = true := by
  induction tas with
  | nil => simp [runTestList]
  | cons a rest ih =>
    cases hc : a.test_command with
    | none => simp [runTestList, hc]
    | some c =>
      intro e he
      simp only [runTestList, hc] at he
      rcases List.mem_cons.mp he with he | he
      · simp [he, isTestEv]
      · exact ih e he

theorem runFileList_events_writeEv (fas : List RawAction) :
    ∀ e ∈ (runFileList fas).1, isWriteEv e = true := by
  induction fas with
  | nil => simp [runFileList]
  | cons a rest ih =>
    cases hc : a.command <;> cases hp : a.path <;> cases hct : a.content <;>
      simp only [runFileList, hc, hp, hct, List.not_mem_nil, false_implies, implies_true]
    intro e he
    rcases List.mem_cons.mp he with he | he
    · simp [he, isWriteEv]
    · exact ih e he

theorem testEv_not_writeEv (e : Ev) (h : isTestEv e = true) : isWriteEv e = false := by
  cases e <;> simp_all [isTestEv, isWriteEv]

/-! Shape lemmas for the test stage. -/

theorem testStage_shape (env : String → CmdBehavior) (st : SessionState)
    (tas : List RawAction) (hw : ∀ a ∈ tas, a.test_command.isSome) :
    ∃ pre, (testStage env st tas "y").events = pre ++ tas.map (testEvOf env) ∧
      ∀ e ∈ pre, isWriteEv e = false ∧ isTestEv e = false := by
  by_cases hemp : tas.isEmpty
  · have hnil : tas = [] := List.isEmpty_iff.mp hemp
    subst hnil
    exact ⟨[], by simp [testStage], by simp⟩
  · by_cases hall : st.allow_tests_always
    · refine ⟨[], ?_, by simp⟩
      simp [testStage, hemp, hall, runTestList_wf env tas hw]
    · obtain ⟨d, hd⟩ := displayTests_wf tas hw
      have hy : strToLower "y" = "y" := by decide
      have hne : ¬ (("y" : String) = "always") := by decide
      refine ⟨[Ev.promptTests d], ?_, by simp [isWriteEv, isTestEv]⟩
      simp [testStage, hemp, hall, hd, hy, hne, runTestList_wf env tas hw]

theorem testStage_state_shape (env : String → CmdBehavior) (st : SessionState)
    (tas : List RawAction) (c : String) :
    ∃ b, (testStage env st tas c).state
        = { allow_files_always := st.allow_files_always,
            allow_tests_always := st.allow_tests_always || b } ∧
      (b = true → strToLower c = "always") := by
  obtain ⟨f, t⟩ := st
  by_cases hemp : tas.isEmpty
  · exact ⟨false, by simp [testStage, hemp], by simp⟩
  · by_cases hall : t
    · exact ⟨false, by simp [testStage, hemp, hall], by simp⟩
    · cases hd : displayTests tas with
      | error e => exact ⟨false, by simp [testStage, hemp, hall, hd], by simp⟩
      | ok d =>
        by_cases hca : strToLower c = "always"
        · refine ⟨true, ?_, fun _ => hca⟩
          simp [testStage, hemp, hall, hd, hca]
        · refine ⟨false, ?_, by simp [hca]⟩
          by_cases hcy : strToLower c = "y"
          · simp [testStage, hemp, hall, hd, hca, hcy]
          · simp [testStage, hemp, hall, hd, hca, hcy]

theorem runTurn_yy_shape (env : String → CmdBehavior) (st : SessionState)
    (actions : List RawAction)
    (hwf : ∀ a ∈ actions.filter isFileAction,
      a.command.isSome ∧ a.path.isSome ∧ a.content.isSome)
    (hwt : ∀ a ∈ actions.filter isTestAction, a.test_command.isSome) :
    ∃ p1 p2, (runTurn env st actions "y" "y").events
        = p1 ++ (actions.filter isFileAction).map writeEvOf
          ++ (p2 ++ (actions.filter isTestAction).map (testEvOf env)) ∧
      (∀ e ∈ p1, isWriteEv e = false ∧ isTestEv e = false) ∧
      (∀ e ∈ p2, isWriteEv e = false ∧ isTestEv e = false) := by
  unfold runTurn runTurnParts
  by_cases hemp : (actions.filter isFileAction).isEmpty
  · have hnil : actions.filter isFileAction = [] := List.isEmpty_iff.mp hemp
    obtain ⟨p2, hp2, hg2⟩ := testStage_shape env st (actions.filter isTestAction) hwt
    exact ⟨[], p2, by simp [hemp, hnil, hp2], by simp, hg2⟩
  · by_cases hall : st.allow_files_always
    · obtain ⟨p2, hp2, hg2⟩ := testStage_shape env st (actions.filter isTestAction) hwt
      refine ⟨[], p2, ?_, by simp, hg2⟩
      simp [hemp, hall, runFileList_wf (actions.filter isFileAction) hwf, hp2]
    · obtain ⟨d, hd⟩ :=
        displayFiles_wf (actions.filter isFileAction)
          (fun a ha => ⟨(hwf a ha).1, (hwf a ha).2.1⟩)
      obtain ⟨p2, hp2, hg2⟩ := testStage_shape env st (actions.filter isTestAction) hwt
      have hy : strToLower "y" = "y" := by decide
      have hne : ¬ (("y" : String) = "always") := by decide
      refine ⟨[Ev.promptFiles d], p2, ?_, by simp [isWriteEv, isTestEv], hg2⟩
      simp [hemp, hall, hd, hy, hne,
        runFileList_wf (actions.filter isFileAction) hwf, hp2]

/-- C2: with both categories approved, the turn applies exactly the file
actions of the plan, in source order, and runs exactly the test actions of the
plan, in source order, with every file write preceding every test run
regardless of how the two kinds were interleaved in the source plan. -/
theorem files_applied_before_tests (env : String → CmdBehavior) (st : SessionState)
    (actions : List RawAction)
    (hwf : ∀ a ∈ actions.filter isFileAction,
      a.command.isSome ∧ a.path.isSome ∧ a.content.isSome)
    (hwt : ∀ a ∈ actions.filter isTestAction, a.test_command.isSome) :
    writesOf (runTurn env st actions "y" "y").events
        = (actions.filter isFileAction).map writeEvOf ∧
    testsOf (runTurn env st actions "y" "y").events
        = (actions.filter isTestAction).map (testEvOf env) ∧
    (runTurn env st actions "y" "y").events.filter (fun e => isWriteEv e || isTestEv e)
        = writesOf (runTurn env st actions "y" "y").events
          ++ testsOf (runTurn env st actions "y" "y").events := by
  obtain ⟨p1, p2, hsh, hg1, hg2⟩ := runTurn_yy_shape env st actions hwf hwt
  have hp1w : p1.filter isWriteEv = [] :=
    List.filter_eq_nil_iff.mpr (fun e he => by simp [(hg1 e he).1])
  have hp2w : p2.filter isWriteEv = [] :=
    List.filter_eq_nil_iff.mpr (fun e he => by simp [(hg2 e he).1])
  have hp1t : p1.filter isTestEv = [] :=
    List.filter_eq_nil_iff.mpr (fun e he => by simp [(hg1 e he).2])
  have hp2t : p2.filter isTestEv = [] :=
    List.filter_eq_nil_iff.mpr (fun e he => by simp [(hg2 e he).2])
  have hp1m : p1.filter (fun e => isWriteEv e || isTestEv e) = [] :=
    List.filter_eq_nil_iff.mpr (fun e he => by simp [(hg1 e he).1, (hg1 e he).2])
  have hp2m : p2.filter (fun e => isWriteEv e || isTestEv e) = [] :=
    List.filter_eq_nil_iff.mpr (fun e he => by simp [(hg2 e he).1, (hg2 e he).2])
  have hWw : ((actions.filter isFileAction).map writeEvOf).filter isWriteEv
      = (actions.filter isFileAction).map writeEvOf :=
    List.filter_eq_self.mpr (fun e he => by
      obtain ⟨a, ha, rfl⟩ := List.mem_map.mp he; rfl)
  have hTt : ((actions.filter isTestAction).map (testEvOf env)).filter isTestEv
      = (actions.filter isTestAction).map (testEvOf env) :=
    List.filter_eq_self.mpr (fun e he => by
      obtain ⟨a, ha, rfl⟩ := List.mem_map.mp he; rfl)
  have hWt : ((actions.filter isFileAction).map writeEvOf).filter isTestEv = [] :=
    List.filter_eq_nil_iff.mpr (fun e he => by
      obtain ⟨a, ha, rfl⟩ := List.mem_map.mp he; simp [writeEvOf, isTestEv])
  have hTw : ((actions.filter isTestAction).map (testEvOf env)).filter isWriteEv = [] :=
    List.filter_eq_nil_iff.mpr (fun e he => by
      obtain ⟨a, ha, rfl⟩ := List.mem_map.mp he; simp [testEvOf, isWriteEv])
  have hWm : ((actions.filter isFileAction).map writeEvOf).filter
      (fun e => isWriteEv e || isTestEv e) = (actions.filter isFileAction).map writeEvOf :=
    List.filter_eq_self.mpr (fun e he => by
      obtain ⟨a, ha, rfl⟩ := List.mem_map.mp he; simp [writeEvOf, isWriteEv])
  have hTm : ((actions.filter isTestAction).map (testEvOf env)).filter
      (fun e => isWriteEv e || isTestEv e) = (actions.filter isTestAction).map (testEvOf env) :=
    List.filter_eq_self.mpr (fun e he => by
      obtain ⟨a, ha, rfl⟩ := List.mem_map.mp he; simp [testEvOf, isTestEv])
  refine ⟨?_, ?_, ?_⟩
  · rw [writesOf, hsh]
    simp [List.filter_append, hp1w, hp2w, hWw, hTw]
  · rw [testsOf, hsh]
    simp [List.filter_append, hp1t, hp2t, hTt, hWt]
  · rw [writesOf, testsOf, hsh]
    simp [List.filter_append, hp1w, hp2w, hWw, hTw, hp1t, hp2t, hTt, hWt,
      hp1m, hp2m, hWm, hTm]

/-- Witness for C2 on a plan whose test action comes before its file action. -/
theorem files_applied_before_tests_witness :
    (∀ a ∈ ([mkTest "echo ok", mkCreate "a.txt" "hi"].filter isFileAction),
      a.command.isSome ∧ a.path.isSome ∧ a.content.isSome) ∧
    (∀ a ∈ ([mkTest "echo ok", mkCreate "a.txt" "hi"].filter isTestAction),
      a.test_command.isSome) ∧
    (writesOf (runTurn envOk initState [mkTest "echo ok", mkCreate "a.txt" "hi"] "y" "y").events
        = ([mkTest "echo ok", mkCreate "a.txt" "hi"].filter isFileAction).map writeEvOf ∧
     testsOf (runTurn envOk initState [mkTest "echo ok", mkCreate "a.txt" "hi"] "y" "y").events
        = ([mkTest "echo ok", mkCreate "a.txt" "hi"].filter isTestAction).map (testEvOf envOk) ∧
     (runTurn envOk initState [mkTest "echo ok", mkCreate "a.txt" "hi"] "y" "y").events.filter
          (fun e => isWriteEv e || isTestEv e)
        = writesOf (runTurn envOk initState
            [mkTest "echo ok", mkCreate "a.txt" "hi"] "y" "y").events
          ++ testsOf (runTurn envOk initState
            [mkTest "echo ok", mkCreate "a.txt" "hi"] "y" "y").events) :=
  ⟨by decide, by decide,
    files_applied_before_tests envOk initState [mkTest "echo ok", mkCreate "a.txt" "hi"]
      (by decide) (by decide)⟩

/-- C7: every authorized test action in a plan runs, one run event per action in
order, so a non-zero exit of an earlier command removes no later one; and a
command that exits non-zero within the timeout yields a Failure report carrying
the real exit code. -/
theorem test_failure_isolation (env : String → CmdBehavior) (tas : List RawAction)
    (hw : ∀ a ∈ tas, a.test_command.isSome) :
    runTestList env tas = (tas.map (testEvOf env), none) ∧
    (∀ c secs code out err, env c = CmdBehavior.runs secs code out err →
      secs ≤ timeoutSeconds → code ≠ 0 →
      execute_test env c =
        { outcome := Outcome.failure, exitCode := some code, stdout := out,
          stderr := err }) := by
  refine ⟨runTestList_wf env tas hw, ?_⟩
  intro c secs code out err he hs hc
  have h30 : ¬ timeoutSeconds < secs := not_lt.mpr hs
  simp [execute_test, he, h30, hc]

/-- Witness for C7: a failing command followed by a succeeding one, both run. -/
theorem test_failure_isolation_witness :
    (∀ a ∈ [mkTest "exit 1", mkTest "echo ok"], a.test_command.isSome) ∧
    (runTestList envMix [mkTest "exit 1", mkTest "echo ok"]
        = ([mkTest "exit 1", mkTest "echo ok"].map (testEvOf envMix), none) ∧
     (∀ c secs code out err, envMix c = CmdBehavior.runs secs code out err →
        secs ≤ timeoutSeconds → code ≠ 0 →
        execute_test envMix c =
          { outcome := Outcome.failure, exitCode := some code, stdout := out,
            stderr := err })) :=
  ⟨by decide, test_failure_isolation envMix [mkTest "exit 1", mkTest "echo ok"] (by decide)⟩

/-! Event-kind lemmas for the two stages. -/

theorem testStage_events_kinds (env : String → CmdBehavior) (st : SessionState)
    (tas : List RawAction) (c : String) :
    ∀ e ∈ (testStage env st tas c).events,
      isTestEv e = true ∨ (∃ d, e = Ev.promptTests d) ∨ e = Ev.testsSkipped := by
  intro e he
  by_cases hemp : tas.isEmpty
  · simp [testStage, hemp] at he
  · by_cases hall : st.allow_tests_always
    · simp only [testStage, hemp, hall, Bool.false_eq_true, if_false, if_true] at he
      exact Or.inl (runTestList_events_testEv env tas e he)
    · cases hd : displayTests tas with
      | error er => simp [testStage, hemp, hall, hd] at he
      | ok d =>
        by_cases hrun : strToLower c = "y" ∨ strToLower c = "always"
        · have hor : (strToLower c = "y" || strToLower c = "always") = true := by
            rcases hrun with h | h <;> simp [h]
          simp only [testStage, hemp, hall, hd, hor, Bool.false_eq_true, if_false,
            if_true] at he
          rcases List.mem_cons.mp he with he | he
          · exact Or.inr (Or.inl ⟨d, he⟩)
          · exact Or.inl (runTestList_events_testEv env tas e he)
        · have hor : (strToLower c = "y" || strToLower c = "always") = false := by
            push_neg at hrun
            simp [hrun.1, hrun.2]
          simp only [testStage, hemp, hall, hd, hor, Bool.false_eq_true, if_false] at he
          rcases List.mem_cons.mp he with he | he
          · exact Or.inr (Or.inl ⟨d, he⟩)
          · rcases List.mem_cons.mp he with he | he
            · exact Or.inr (Or.inr he)
            · simp at he

theorem writesOf_append (xs ys : List Ev) :
    writesOf (xs ++ ys) = writesOf xs ++ writesOf ys := List.filter_append xs ys

theorem writesOf_map_writeEvOf (l : List RawAction) :
    writesOf (l.map writeEvOf) = l.map writeEvOf :=
  List.filter_eq_self.mpr (fun e he => by obtain ⟨a, ha, rfl⟩ := List.mem_map.mp he; rfl)

theorem writesOf_promptFiles_cons (d : List String) (evs : List Ev) :
    writesOf (Ev.promptFiles d :: evs) = writesOf evs := by
  simp [writesOf, List.filter_cons, isWriteEv]

theorem testStage_no_writes (env : String → CmdBehavior) (st : SessionState)
    (tas : List RawAction) (c : String) :
    writesOf (testStage env st tas c).events = [] := by
  apply List.filter_eq_nil_iff.mpr
  intro e he
  rcases testStage_events_kinds env st tas c e he with h | ⟨d, rfl⟩ | rfl
  · simp [testEv_not_writeEv e h]
  · simp [isWriteEv]
  · simp [isWriteEv]

/-- C6 counterexample: a plan with one file action and one test action, the file
prompt declined with n and the test prompt answered y: the turn ends at the
file decline; the test action is never offered and never run, although its own
gate was answered affirmatively. -/
theorem declining_files_skips_tests :
    runTurn envOk initState [mkCreate "a.txt" "hi", mkTest "echo ok"] "n" "y"
      = { state := initState,
          events := [Ev.promptFiles ["create_file on file a.txt"], Ev.filesAborted],
          error := none } := by decide

/-- C6 amended: declining the file-changes prompt aborts the turn, so the test
actions are neither offered nor run in that turn; in the other direction,
declining the tests prompt leaves the already applied file actions intact. -/
theorem decline_gate_behavior :
    (∀ env st actions fc tc disp, st.allow_files_always = false →
      actions.filter isFileAction ≠ [] →
      strToLower fc ≠ "y" → strToLower fc ≠ "always" →
      displayFiles (actions.filter isFileAction) = Except.ok disp →
      runTurn env st actions fc tc
        = { state := st, events := [Ev.promptFiles disp, Ev.filesAborted],
            error := none }) ∧
    (∀ env st actions tc, st.allow_tests_always = false →
      (∀ a ∈ actions.filter isFileAction,
        a.command.isSome ∧ a.path.isSome ∧ a.content.isSome) →
      strToLower tc ≠ "y" → strToLower tc ≠ "always" →
      writesOf (runTurn env st actions "y" tc).events
        = (actions.filter isFileAction).map writeEvOf) := by
  constructor
  · intro env st actions fc tc disp hf hne hn1 hn2 hd
    have hemp : (actions.filter isFileAction).isEmpty = false :=
      List.isEmpty_eq_false.mpr hne
    unfold runTurn runTurnParts
    simp [hemp, hf, hd, hn1, hn2]
  · intro env st actions tc hts hwf hn1 hn2
    unfold runTurn runTurnParts
    by_cases hemp : (actions.filter isFileAction).isEmpty
    · have hnil : actions.filter isFileAction = [] := List.isEmpty_iff.mp hemp
      simp [hemp, hnil, testStage_no_writes]
    · by_cases hall : st.allow_files_always
      · simp [hemp, hall, runFileList_wf (actions.filter isFileAction) hwf,
          writesOf_append, writesOf_map_writeEvOf, testStage_no_writes]
      · obtain ⟨d, hd⟩ :=
          displayFiles_wf (actions.filter isFileAction)
            (fun a ha => ⟨(hwf a ha).1, (hwf a ha).2.1⟩)
        have hy : strToLower "y" = "y" := by decide
        have hya : ¬ (("y" : String) = "always") := by decide
        simp [hemp, hall, hd, hy, hya,
          runFileList_wf (actions.filter isFileAction) hwf,
          writesOf_promptFiles_cons, writesOf_append, writesOf_map_writeEvOf,
          testStage_no_writes]

/-- Witness for C6 at a concrete declined file prompt. -/
theorem decline_gate_behavior_witness :
    (initState.allow_files_always = false ∧
     [mkCreate "b.txt" "x", mkTest "echo hi"].filter isFileAction ≠ [] ∧
     strToLower "n" ≠ "y" ∧ strToLower "n" ≠ "always" ∧
     displayFiles ([mkCreate "b.txt" "x", mkTest "echo hi"].filter isFileAction)
       = Except.ok ["create_file on file b.txt"]) ∧
    runTurn envOk initState [mkCreate "b.txt" "x", mkTest "echo hi"] "n" "y"
      = { state := initState,
          events := [Ev.promptFiles ["create_file on file b.txt"], Ev.filesAborted],
          error := none } :=
  ⟨⟨rfl, by decide, by decide, by decide, rfl⟩,
    decline_gate_behavior.1 envOk initState [mkCreate "b.txt" "x", mkTest "echo hi"]
      "n" "y" ["create_file on file b.txt"] rfl (by decide) (by decide) (by decide)
      rfl⟩

/-! State-shape lemmas for the confirmation flags. -/

theorem runTurnParts_state_shape (env : String → CmdBehavior) (st : SessionState)
    (fas tas : List RawAction) (fc tc : String) :
    ∃ b1 b2, (runTurnParts env st fas tas fc tc).state
        = { allow_files_always := st.allow_files_always || b1,
            allow_tests_always := st.allow_tests_always || b2 } ∧
      (b1 = true → strToLower fc = "always") ∧
      (b2 = true → strToLower tc = "always") := by
  obtain ⟨f, t⟩ := st
  by_cases hemp : fas.isEmpty
  · obtain ⟨b, hb, hcnd⟩ :=
      testStage_state_shape env { allow_files_always := f, allow_tests_always := t } tas tc
    refine ⟨false, b, ?_, by simp, hcnd⟩
    simp [runTurnParts, hemp, hb]
  · by_cases hall : f
    · subst hall
      cases hr : (runFileList fas).2 with
      | some e =>
        refine ⟨false, false, ?_, by simp, by simp⟩
        simp [runTurnParts, hemp, hr]
      | none =>
        obtain ⟨b, hb, hcnd⟩ :=
          testStage_state_shape env
            { allow_files_always := true, allow_tests_always := t } tas tc
        refine ⟨false, b, ?_, by simp, hcnd⟩
        simp [runTurnParts, hemp, hr, hb]
    · have hf : f = false := by simpa using hall
      subst hf
      cases hd : displayFiles fas with
      | error e =>
        refine ⟨false, false, ?_, by simp, by simp⟩
        simp [runTurnParts, hemp, hd]
      | ok d =>
        by_cases hca : strToLower fc = "always"
        · cases hr : (runFileList fas).2 with
          | some e =>
            refine ⟨true, false, ?_, fun _ => hca, by simp⟩
            simp [runTurnParts, hemp, hd, hca, hr]
          | none =>
            obtain ⟨b, hb, hcnd⟩ :=
              testStage_state_shape env
                { allow_files_always := true, allow_tests_always := t } tas tc
            refine ⟨true, b, ?_, fun _ => hca, hcnd⟩
            simp [runTurnParts, hemp, hd, hca, hr, hb]
        · by_cases hcy : strToLower fc = "y"
          · cases hr : (runFileList fas).2 with
            | some e =>
              refine ⟨false, false, ?_, by simp, by simp⟩
              simp [runTurnParts, hemp, hd, hca, hcy, hr]
            | none =>
              obtain ⟨b, hb, hcnd⟩ :=
                testStage_state_shape env
                  { allow_files_always := false, allow_tests_always := t } tas tc
              refine ⟨false, b, ?_, by simp, hcnd⟩
              simp [runTurnParts, hemp, hd, hca, hcy, hr, hb]
          · refine ⟨false, false, ?_, by simp, by simp⟩
            simp [runTurnParts, hemp, hd, hca, hcy]

theorem runSession_files_mono (env : String → CmdBehavior) (turns : List TurnInput) :
    ∀ st : SessionState, st.allow_files_always = true →
      (runSession env st turns).allow_files_always = true := by
  induction turns with
  | nil => intro st h; exact h
  | cons turn rest ih =>
    intro st h
    apply ih
    obtain ⟨b1, b2, hs, _, _⟩ :=
      runTurnParts_state_shape env st (turn.actions.filter isFileAction)
        (turn.actions.filter isTestAction) turn.fileConfirm turn.testConfirm
    show (runTurn env st turn.actions turn.fileConfirm turn.testConfirm).state.allow_files_always
      = true
    rw [runTurn, hs]
    simp [h]

theorem runSession_tests_mono (env : String → CmdBehavior) (turns : List TurnInput) :
    ∀ st : SessionState, st.allow_tests_always = true →
      (runSession env st turns).allow_tests_always = true := by
  induction turns with
  | nil => intro st h; exact h
  | cons turn rest ih =>
    intro st h
    apply ih
    obtain ⟨b1, b2, hs, _, _⟩ :=
      runTurnParts_state_shape env st (turn.actions.filter isFileAction)
        (turn.actions.filter isTestAction) turn.fileConfirm turn.testConfirm
    show (runTurn env st turn.actions turn.fileConfirm turn.testConfirm).state.allow_tests_always
      = true
    rw [runTurn, hs]
    simp [h]

theorem testStage_always_events (env : String → CmdBehavior) (st : SessionState)
    (tas : List RawAction) (c : String) (h : st.allow_tests_always = true) :
    ∀ e ∈ (testStage env st tas c).events, isTestEv e = true := by
  intro e he
  by_cases hemp : tas.isEmpty
  · simp [testStage, hemp] at he
  · simp only [testStage, hemp, h, Bool.false_eq_true, if_false, if_true] at he
    exact runTestList_events_testEv env tas e he

theorem runTurn_files_always_events (env : String → CmdBehavior) (st : SessionState)
    (actions : List RawAction) (fc tc : String) (h : st.allow_files_always = true) :
    ∀ e ∈ (runTurn env st actions fc tc).events,
      isWriteEv e = true ∨ isTestEv e = true ∨ (∃ d, e = Ev.promptTests d) ∨
        e = Ev.testsSkipped := by
  intro e he
  unfold runTurn runTurnParts at he
  by_cases hemp : (actions.filter isFileAction).isEmpty
  · simp only [hemp, if_true] at he
    rcases testStage_events_kinds env st (actions.filter isTestAction) tc e he
      with h1 | h1 | h1
    · exact Or.inr (Or.inl h1)
    · exact Or.inr (Or.inr (Or.inl h1))
    · exact Or.inr (Or.inr (Or.inr h1))
  · cases hr : (runFileList (actions.filter isFileAction)).2 with
    | some er =>
      simp only [hemp, h, hr, Bool.false_eq_true, if_false, if_true] at he
      exact Or.inl (runFileList_events_writeEv (actions.filter isFileAction) e he)
    | none =>
      simp only [hemp, h, hr, Bool.false_eq_true, if_false, if_true] at he
      rcases List.mem_append.mp he with he | he
      · exact Or.inl (runFileList_events_writeEv (actions.filter isFileAction) e he)
      · rcases testStage_events_kinds env st (actions.filter isTestAction) tc e he
          with h1 | h1 | h1
        · exact Or.inr (Or.inl h1)
        · exact Or.inr (Or.inr (Or.inl h1))
        · exact Or.inr (Or.inr (Or.inr h1))

theorem runTurn_tests_always_events (env : String → CmdBehavior) (st : SessionState)
    (actions : List RawAction) (fc tc : String) (h : st.allow_tests_always = true) :
    ∀ e ∈ (runTurn env st actions fc tc).events,
      isWriteEv e = true ∨ isTestEv e = true ∨ (∃ d, e = Ev.promptFiles d) ∨
        e = Ev.filesAborted := by
  intro e he
  unfold runTurn runTurnParts at he
  by_cases hemp : (actions.filter isFileAction).isEmpty
  · simp only [hemp, if_true] at he
    exact Or.inr (Or.inl (testStage_always_events env st _ tc h e he))
  · by_cases hall : st.allow_files_always
    · cases hr : (runFileList (actions.filter isFileAction)).2 with
      | some er =>
        simp only [hemp, hall, hr, Bool.false_eq_true, if_false, if_true] at he
        exact Or.inl (runFileList_events_writeEv _ e he)
      | none =>
        simp only [hemp, hall, hr, Bool.false_eq_true, if_false, if_true] at he
        rcases List.mem_append.mp he with he | he
        · exact Or.inl (runFileList_events_writeEv _ e he)
        · exact Or.inr (Or.inl (testStage_always_events env st _ tc h e he))
    · cases hd : displayFiles (actions.filter isFileAction) with
      | error er => simp [hemp, hall, hd] at he
      | ok d =>
        by_cases hca : strToLower fc = "always"
        · cases hr : (runFileList (actions.filter isFileAction)).2 with
          | some er =>
            simp [hemp, hall, hd, hca, hr] at he
            rcases he with he | he
            · exact Or.inr (Or.inr (Or.inl ⟨d, he⟩))
            · exact Or.inl (runFileList_events_writeEv _ e he)
          | none =>
            simp [hemp, hall, hd, hca, hr] at he
            rcases he with he | he | he
            · exact Or.inr (Or.inr (Or.inl ⟨d, he⟩))
            · exact Or.inl (runFileList_events_writeEv _ e he)
            · refine Or.inr (Or.inl (testStage_always_events env
                { st with allow_files_always := true } _ tc (by simp [h]) e he))
        · by_cases hcy : strToLower fc = "y"
          · cases hr : (runFileList (actions.filter isFileAction)).2 with
            | some er =>
              simp [hemp, hall, hd, hca, hcy, hr] at he
              rcases he with he | he
              · exact Or.inr (Or.inr (Or.inl ⟨d, he⟩))
              · exact Or.inl (runFileList_events_writeEv _ e he)
            | none =>
              simp [hemp, hall, hd, hca, hcy, hr] at he
              rcases he with he | he | he
              · exact Or.inr (Or.inr (Or.inl ⟨d, he⟩))
              · exact Or.inl (runFileList_events_writeEv _ e he)
              · exact Or.inr (Or.inl (testStage_always_events env st _ tc h e he))
          · simp [hemp, hall, hd, hca, hcy] at he
            rcases he with he | he
            · exact Or.inr (Or.inr (Or.inl ⟨d, he⟩))
            · exact Or.inr (Or.inr (Or.inr he))

/-- C3: both confirmation flags start false at session start; each is monotone
across the whole session; a flag becomes true only through an explicit always
response; and once the flag of a category is true, every later turn runs that
category with no prompt and no possibility of decline. -/
theorem confirmation_flags_monotone :
    initState.allow_files_always = false ∧ initState.allow_tests_always = false ∧
    (∀ env st turns, st.allow_files_always = true →
      (runSession env st turns).allow_files_always = true) ∧
    (∀ env st turns, st.allow_tests_always = true →
      (runSession env st turns).allow_tests_always = true) ∧
    (∀ env st actions fc tc,
      (runTurn env st actions fc tc).state.allow_files_always = true →
      st.allow_files_always = true ∨ strToLower fc = "always") ∧
    (∀ env st actions fc tc,
      (runTurn env st actions fc tc).state.allow_tests_always = true →
      st.allow_tests_always = true ∨ strToLower tc = "always") ∧
    (∀ env st actions fc tc, st.allow_files_always = true →
      (∀ d, Ev.promptFiles d ∉ (runTurn env st actions fc tc).events) ∧
      Ev.filesAborted ∉ (runTurn env st actions fc tc).events) ∧
    (∀ env st actions fc tc, st.allow_tests_always = true →
      (∀ d, Ev.promptTests d ∉ (runTurn env st actions fc tc).events) ∧
      Ev.testsSkipped ∉ (runTurn env st actions fc tc).events) := by
  refine ⟨rfl, rfl, fun env st turns h => runSession_files_mono env turns st h,
    fun env st turns h => runSession_tests_mono env turns st h, ?_, ?_, ?_, ?_⟩
  · intro env st actions fc tc h
    obtain ⟨b1, b2, hs, hb1, hb2⟩ := runTurnParts_state_shape env st
      (actions.filter isFileAction) (actions.filter isTestAction) fc tc
    rw [runTurn, hs] at h
    simp only [Bool.or_eq_true] at h
    rcases h with h | h
    · exact Or.inl h
    · exact Or.inr (hb1 h)
  · intro env st actions fc tc h
    obtain ⟨b1, b2, hs, hb1, hb2⟩ := runTurnParts_state_shape env st
      (actions.filter isFileAction) (actions.filter isTestAction) fc tc
    rw [runTurn, hs] at h
    simp only [Bool.or_eq_true] at h
    rcases h with h | h
    · exact Or.inl h
    · exact Or.inr (hb2 h)
  · intro env st actions fc tc h
    constructor
    · intro d hmem
      rcases runTurn_files_always_events env st actions fc tc h _ hmem
        with h1 | h1 | ⟨d2, h1⟩ | h1 <;> simp [isWriteEv, isTestEv] at h1
    · intro hmem
      rcases runTurn_files_always_events env st actions fc tc h _ hmem
        with h1 | h1 | ⟨d2, h1⟩ | h1 <;> simp [isWriteEv, isTestEv] at h1
  · intro env st actions fc tc h
    constructor
    · intro d hmem
      rcases runTurn_tests_always_events env st actions fc tc h _ hmem
        with h1 | h1 | ⟨d2, h1⟩ | h1 <;> simp [isWriteEv, isTestEv] at h1
    · intro hmem
      rcases runTurn_tests_always_events env st actions fc tc h _ hmem
        with h1 | h1 | ⟨d2, h1⟩ | h1 <;> simp [isWriteEv, isTestEv] at h1

/-- Witness for C3: a session whose files flag is already true keeps it true
across a turn in which the file prompt would otherwise be declined. -/
theorem confirmation_flags_monotone_witness :
    SessionState.allow_files_always
      { allow_files_always := true, allow_tests_always := false } = true ∧
    SessionState.allow_files_always
      (runSession envOk { allow_files_always := true, allow_tests_always := false }
        [{ actions := [mkCreate "a.txt" "hi"], fileConfirm := "n", testConfirm := "n" }])
      = true :=
  ⟨rfl, confirmation_flags_monotone.2.2.1 envOk
    { allow_files_always := true, allow_tests_always := false }
    [{ actions := [mkCreate "a.txt" "hi"], fileConfirm := "n", testConfirm := "n" }] rfl⟩

theorem runFileList_missing_key (pre : List RawAction) (a : RawAction)
    (post : List RawAction)
    (hpre : ∀ b ∈ pre, b.command.isSome ∧ b.path.isSome ∧ b.content.isSome)
    (hbad : a.path = none ∨ a.content = none) :
    runFileList (pre ++ a :: post) = (pre.map writeEvOf, some "KeyError") := by
  induction pre with
  | nil =>
    rcases hbad with h | h
    · cases hc : a.command <;> cases hct : a.content <;>
        simp [runFileList, hc, h, hct]
    · cases hc : a.command <;> cases hp : a.path <;>
        simp [runFileList, hc, hp, h]
  | cons b rest ih =>
    obtain ⟨c, hc⟩ := Option.isSome_iff_exists.mp (hpre b (by simp)).1
    obtain ⟨p, hp⟩ := Option.isSome_iff_exists.mp (hpre b (by simp)).2.1
    obtain ⟨ct, hct⟩ := Option.isSome_iff_exists.mp (hpre b (by simp)).2.2
    have hrest := ih (fun x hx => hpre x (by simp [hx]))
    simp [runFileList, hc, hp, hct, hrest, writeEvOf]

/-- C10: with the file category authorized by the session flag, a file action
whose path or content key is missing makes the lookup error escape to the
turn-level handler: the actions before it have run, but neither the remaining
file actions nor any test action of that plan run in that turn, and the turn
reports the unexpected error. -/
theorem missing_key_aborts_turn (env : String → CmdBehavior) (st : SessionState)
    (actions : List RawAction) (pre : List RawAction) (a : RawAction)
    (post : List RawAction) (fc tc : String)
    (hal : st.allow_files_always = true)
    (hsplit : actions.filter isFileAction = pre ++ a :: post)
    (hpre : ∀ b ∈ pre, b.command.isSome ∧ b.path.isSome ∧ b.content.isSome)
    (hbad : a.path = none ∨ a.content = none) :
    runTurn env st actions fc tc
      = { state := st, events := pre.map writeEvOf, error := some "KeyError" } := by
  unfold runTurn runTurnParts
  rw [hsplit]
  have hemp : (pre ++ a :: post).isEmpty = false := by
    cases pre <;> simp
  simp [hemp, hal, runFileList_missing_key pre a post hpre hbad]

/-- A create_file action object lacking its content key. -/
def badCreate : RawAction :=
  { command := some "create_file", path := some "x.txt", content := none,
    test_command := none }

/-- Witness for C10: a plan with a good file action, a file action missing its
content key, and a test action; the good write happens, the test never runs. -/
theorem missing_key_aborts_turn_witness :
    (SessionState.allow_files_always
        { allow_files_always := true, allow_tests_always := true } = true ∧
     [mkCreate "a.txt" "hi", badCreate, mkTest "echo ok"].filter isFileAction
        = [mkCreate "a.txt" "hi"] ++ badCreate :: [] ∧
     (∀ b ∈ [mkCreate "a.txt" "hi"],
        b.command.isSome ∧ b.path.isSome ∧ b.content.isSome) ∧
     (badCreate.path = none ∨ badCreate.content = none)) ∧
    runTurn envOk { allow_files_always := true, allow_tests_always := true }
        [mkCreate "a.txt" "hi", badCreate, mkTest "echo ok"] "y" "y"
      = { state := { allow_files_always := true, allow_tests_always := true },
          events := [mkCreate "a.txt" "hi"].map writeEvOf,
          error := some "KeyError" } :=
  ⟨⟨rfl, by decide, by decide, Or.inr rfl⟩,
    missing_key_aborts_turn envOk
      { allow_files_always := true, allow_tests_always := true }
      [mkCreate "a.txt" "hi", badCreate, mkTest "echo ok"]
      [mkCreate "a.txt" "hi"] badCreate [] "y" "y" rfl (by decide) (by decide)
      (Or.inr rfl)⟩
